import Mathlib

/-
Verification development for hw_8.py, a console address book.
The Python code is shallowly embedded: every definition below mirrors a
function or method of the source file (line references in the comments),
with Python exceptions modelled by an explicit error type.
-/

namespace HW8

/-- The Python exception kinds that hw_8.py raises or catches. -/
inductive PyErr where
  | keyError (msg : String)
  | valueError (msg : String)
  | indexError
  | attributeError
  deriving Repr, DecidableEq

/-- The character property tested by Python's `str.isdigit`: Numeric_Type =
Digit or Decimal in the Unicode database. Modelled on the code-point ranges
relevant to this development: the ASCII decimal digits, the Arabic-Indic
decimal digits U+0660-U+0669 (category Nd, Numeric_Type=Decimal), and the
superscript and subscript digits U+00B2, U+00B3, U+00B9, U+2070,
U+2074-U+2079, U+2080-U+2089 (Numeric_Type=Digit but not Decimal). Python
accepts further Nd ranges of other scripts; every theorem below that
quantifies over arbitrary strings restricts itself to the ASCII range, where
this model is exact. -/
def pyCharIsDigit (c : Char) : Bool :=
  (0x30 ≤ c.toNat && c.toNat ≤ 0x39) ||
  (0x660 ≤ c.toNat && c.toNat ≤ 0x669) ||
  c.toNat == 0xB2 || c.toNat == 0xB3 || c.toNat == 0xB9 ||
  c.toNat == 0x2070 || (0x2074 ≤ c.toNat && c.toNat ≤ 0x2079) ||
  (0x2080 ≤ c.toNat && c.toNat ≤ 0x2089)

/-- Decimal digit characters (Unicode Numeric_Type=Decimal, category Nd)
within the modelled domain: ASCII `0`-`9` and the Arabic-Indic digits. The
superscript and subscript digits are not decimal digits. -/
def isDecimalDigit (c : Char) : Bool :=
  (0x30 ≤ c.toNat && c.toNat ≤ 0x39) || (0x660 ≤ c.toNat && c.toNat ≤ 0x669)

/-- Models Python `str.isdigit()`: true iff the string is nonempty and every
character has the digit property. -/
def pyIsdigit (s : String) : Bool :=
  !s.data.isEmpty && s.data.all pyCharIsDigit

/-- A `Phone` field (src line 16-23): it wraps the phone string. -/
structure Phone where
  value : String
  deriving Repr, DecidableEq

/-- `Phone.validate` condition (src line 22): `value.isdigit() and len(value) == 10`. -/
def Phone.validateOk (value : String) : Bool :=
  pyIsdigit value && value.length == 10

/-- `Phone.__init__` (src lines 17-23): stores the value, then validates,
raising `ValueError` on failure. -/
def mkPhone (value : String) : Except PyErr Phone :=
  if Phone.validateOk value then .ok ⟨value⟩
  else .error (.valueError "Invalid phone number format. Phone number should contain 10 digits.")

/-- A calendar date, the `.date` payload of `datetime` objects. -/
structure Date where
  year : Nat
  month : Nat
  day : Nat
  deriving Repr, DecidableEq

/-- Gregorian leap-year rule, as in Python's `calendar`/`datetime`. -/
def isLeapYear (y : Nat) : Bool :=
  y % 4 == 0 && (y % 100 != 0 || y % 400 == 0)

/-- Length of a month, as used by `datetime`'s range check. -/
def daysInMonth (y m : Nat) : Nat :=
  if m == 2 then (if isLeapYear y then 29 else 28)
  else if m == 4 || m == 6 || m == 9 || m == 11 then 30
  else 31

/-- The field-range check performed by the `datetime(year, month, day)`
constructor. -/
def Date.Valid (d : Date) : Prop :=
  1 ≤ d.year ∧ d.year ≤ 9999 ∧ 1 ≤ d.month ∧ d.month ≤ 12 ∧
    1 ≤ d.day ∧ d.day ≤ daysInMonth d.year d.month

instance (d : Date) : Decidable d.Valid := by
  unfold Date.Valid; infer_instance

/-- Models the `datetime(year, month, day)` constructor call (src lines 81, 84):
yields the date, or raises `ValueError` when a field is out of range. -/
def mkDatetime (year month day : Nat) : Except PyErr Date :=
  if Date.Valid ⟨year, month, day⟩ then .ok ⟨year, month, day⟩
  else .error (.valueError "day is out of range for month")

/-- Days in the year strictly before month `m` (with the leap-day adjustment),
as in Python's `datetime._days_before_month`. -/
def daysBeforeMonth (leap : Bool) (m : Nat) : Nat :=
  (match m with
   | 1 => 0 | 2 => 31 | 3 => 59 | 4 => 90 | 5 => 120 | 6 => 151
   | 7 => 181 | 8 => 212 | 9 => 243 | 10 => 273 | 11 => 304 | 12 => 334
   | _ => 0) +
  (if 3 ≤ m ∧ leap then 1 else 0)

/-- Python's `date.toordinal()`: day number with 0001-01-01 ↦ 1. -/
def toOrdinal (d : Date) : Nat :=
  365 * (d.year - 1) + (d.year - 1) / 4 - (d.year - 1) / 100 + (d.year - 1) / 400 +
    daysBeforeMonth (isLeapYear d.year) d.month + d.day

/-- Python's `date.weekday()`: Monday = 0, ..., Sunday = 6. -/
def weekday (d : Date) : Nat :=
  (toOrdinal d + 6) % 7

/-- Calendar successor of a date (the semantics of `+ timedelta(days=1)`). -/
def nextDay (d : Date) : Date :=
  if d.day < daysInMonth d.year d.month then ⟨d.year, d.month, d.day + 1⟩
  else if d.month < 12 then ⟨d.year, d.month + 1, 1⟩
  else ⟨d.year + 1, 1, 1⟩

/-- `d + timedelta(days=n)` on the date part. -/
def addDays (d : Date) : Nat → Date
  | 0 => d
  | n + 1 => addDays (nextDay d) n

/-- Zero-padded two-digit field, as `strftime` `%d` / `%m` render it. -/
def pad2 (n : Nat) : String :=
  if n < 10 then "0" ++ toString n else toString n

/-- Zero-padded four-digit year, as `strftime` `%Y` renders it. -/
def pad4 (n : Nat) : String :=
  if n < 10 then "000" ++ toString n
  else if n < 100 then "00" ++ toString n
  else if n < 1000 then "0" ++ toString n
  else toString n

/-- `strftime("%d.%m.%Y")` (src line 95). -/
def fmtDate (d : Date) : String :=
  pad2 d.day ++ "." ++ pad2 d.month ++ "." ++ pad4 d.year

/-- Microseconds in a day (`timedelta` resolution). -/
def usPerDay : Nat := 86400000000

/-- A Python `datetime`: a date plus the time of day in microseconds since
midnight. `datetime.today()` (src line 76) produces one of these with the
current wall-clock time of day. -/
structure DateTime where
  date : Date
  tod : Nat
  deriving Repr, DecidableEq

/-- The comparison `datetime(y, m, d) < today` (src line 83): the left side is
at midnight, so it is strictly smaller iff its date is earlier, or the dates
are equal and `today` has a nonzero time of day. -/
def midnightLt (d : Date) (t : DateTime) : Bool :=
  toOrdinal d < toOrdinal t.date || (toOrdinal d == toOrdinal t.date && t.tod != 0)

/-- `(datetime(y, m, d) - today).days` (src lines 86-88): Python's `timedelta`
normalizes to a floor division of the total microsecond difference by a day. -/
def deltaDays (occ : Date) (t : DateTime) : Int :=
  Int.fdiv (((toOrdinal occ : Int) - (toOrdinal t.date : Int)) * (usPerDay : Int)
      - (t.tod : Int)) (usPerDay : Int)

/-- A `Birthday` field (src lines 25-31): it stores the parsed calendar date
(`self.date`). The original text form is not needed by any claim here. -/
structure Birthday where
  date : Date
  deriving Repr, DecidableEq

/-- A `Record` (src lines 33-62): a name, an ordered phone list, and an
optional birthday. -/
structure Record where
  name : String
  phones : List Phone
  birthday : Option Birthday
  deriving Repr, DecidableEq

/-- `Record.add_phone` (src lines 39-40): construct a `Phone` (which may raise)
and append it. -/
def Record.add_phone (r : Record) (phone : String) : Except PyErr Record :=
  match mkPhone phone with
  | .ok p => .ok { r with phones := r.phones ++ [p] }
  | .error e => .error e

/-- `Record.remove_phone` (src lines 42-43): keep exactly the stored phones
whose string differs from `phone`. -/
def Record.remove_phone (r : Record) (phone : String) : Record :=
  { r with phones := r.phones.filter (fun p => p.value != phone) }

/-- `Record.edit_phone` (src lines 45-47): remove the old phone, then add the
new one. The removal has already mutated the record when the add raises, so
the result carries the post-removal state together with the raised error. -/
def Record.edit_phone (r : Record) (old_phone new_phone : String) :
    Record × Option PyErr :=
  let r1 := r.remove_phone old_phone
  match r1.add_phone new_phone with
  | .ok r2 => (r2, none)
  | .error e => (r1, some e)

/-- `Record.find_phone` (src lines 49-53): first stored phone with the given
string, if any. -/
def Record.find_phone (r : Record) (phone : String) : Option Phone :=
  r.phones.find? (fun p => p.value == phone)

/-- An `AddressBook` (src line 64): the underlying dict, modelled as an
insertion-ordered association list with unique keys. -/
structure AddressBook where
  data : List (String × Record)
  deriving Repr, DecidableEq

/-- `AddressBook.add_record` (src lines 65-66): dict assignment by the record's
name — replace in place when the key exists, append otherwise. -/
def AddressBook.add_record (book : AddressBook) (record : Record) : AddressBook :=
  if book.data.any (fun kv => kv.1 == record.name) then
    ⟨book.data.map (fun kv => if kv.1 == record.name then (kv.1, record) else kv)⟩
  else
    ⟨book.data ++ [(record.name, record)]⟩

/-- `AddressBook.find` (src lines 68-69): `dict.get`, `none` when absent. -/
def AddressBook.find (book : AddressBook) (name : String) : Option Record :=
  (book.data.find? (fun kv => kv.1 == name)).map Prod.snd

/-- In-place mutation of the record stored under `name` (Python records are
mutated through the reference held by the dict). -/
def AddressBook.update (book : AddressBook) (name : String) (r : Record) : AddressBook :=
  ⟨book.data.map (fun kv => if kv.1 == name then (kv.1, r) else kv)⟩

/-- One emitted element of `get_upcoming_birthdays` (src line 95):
`{"name": ..., "birthday": ...}`. -/
structure Entry where
  name : String
  birthday : String
  deriving Repr, DecidableEq

/-- Src lines 81-84: this year's occurrence of the birthday's month/day, bumped
to next year when it compares strictly before `today`. Either `datetime`
construction may raise. -/
def forwardOcc (today : DateTime) (b : Birthday) : Except PyErr Date :=
  match mkDatetime today.date.year b.date.month b.date.day with
  | .error e => .error e
  | .ok occ =>
    if midnightLt occ today then
      mkDatetime (today.date.year + 1) b.date.month b.date.day
    else .ok occ

/-- Src lines 89-93: `weekday() >= 5` shifts Saturday by 2 days and Sunday by
1 day. -/
def adjustWeekend (d : Date) : Date :=
  if 5 ≤ weekday d then
    (if weekday d == 5 then addDays d 2 else addDays d 1)
  else d

/-- The body of the record loop of `get_upcoming_birthdays` (src lines 79-95):
`none` when the record has no birthday or falls outside the window, an entry
when it qualifies, an error when a `datetime` construction raises. -/
def processRecord (today : DateTime) (days : Nat) (r : Record) :
    Except PyErr (Option Entry) :=
  match r.birthday with
  | none => .ok none
  | some b =>
    match forwardOcc today b with
    | .error e => .error e
    | .ok occ =>
      if 0 ≤ deltaDays occ today ∧ deltaDays occ today ≤ (days : Int) then
        .ok (some ⟨r.name, fmtDate (adjustWeekend occ)⟩)
      else .ok none

/-- The iteration of `get_upcoming_birthdays` over the stored records in
insertion order, collecting qualifying entries; a raise at any record aborts
the whole call. -/
def upcomingGo (today : DateTime) (days : Nat) :
    List (String × Record) → Except PyErr (List Entry)
  | [] => .ok []
  | (_, r) :: rest =>
    match processRecord today days r with
    | .error e => .error e
    | .ok eo =>
      match upcomingGo today days rest with
      | .error e => .error e
      | .ok out => .ok (match eo with | some x => x :: out | none => out)

/-- `AddressBook.get_upcoming_birthdays` (src lines 75-97), with `today`
(the value of `datetime.today()`) and the window made explicit parameters. -/
def AddressBook.get_upcoming_birthdays (book : AddressBook) (today : DateTime)
    (days : Nat) : Except PyErr (List Entry) :=
  upcomingGo today days book.data

/-- Python `str.split()` with no separator: split on whitespace runs, never
producing empty tokens. -/
def splitWsAux : List Char → List Char → List String
  | [], acc => if acc.isEmpty then [] else [String.mk acc.reverse]
  | c :: cs, acc =>
    if c.isWhitespace then
      (if acc.isEmpty then splitWsAux cs [] else String.mk acc.reverse :: splitWsAux cs [])
    else splitWsAux cs (c :: acc)

/-- Python `user_input.split()`. -/
def splitWs (s : String) : List String :=
  splitWsAux s.data []

/-- `parse_input` (src lines 197-200): `cmd, *args = user_input.split()` raises
`ValueError` when the split is empty; otherwise the command token is
lower-cased (the `strip()` is a no-op on whitespace-free tokens). -/
def parse_input (user_input : String) : Except PyErr (String × List String) :=
  match splitWs user_input with
  | [] => .error (.valueError "not enough values to unpack (expected at least 1, got 0)")
  | cmd :: args => .ok (cmd.toLower, args)

/-- Whether `pat` occurs as a contiguous substring, modelling Python's
`pat in msg` on strings. -/
def subOccurs (pat : List Char) : List Char → Bool
  | [] => pat.isEmpty
  | c :: rest => pat.isPrefixOf (c :: rest) || subOccurs pat rest

/-- The `input_error` decorator (src lines 102-120): converts each caught
exception kind to its user-facing message; `ValueError` messages are routed by
substring-matching on the words phone / date. -/
def input_error (result : Except PyErr String) : String :=
  match result with
  | .ok s => s
  | .error (.keyError _) =>
      "Contact already exists. Please try a different name or use the \x27change\x27 command to update."
  | .error (.valueError msg) =>
      if subOccurs "phone".data msg.data then
        "Invalid phone number format. Phone number should contain exactly 10 digits."
      else if subOccurs "date".data msg.data then
        "Invalid date format. Please use the format DD.MM.YYYY."
      else "An error occurred. Please try again."
  | .error .indexError => "Please enter a name to show the phone number."
  | .error .attributeError => "Contact not found. Please enter a valid name."

/-- `change_contact` (src lines 146-154), body only (the decorator is applied
separately as `input_error`). Returns the raised-or-returned outcome together
with the book state after whatever mutation happened: unpacking `args` raises
`ValueError` unless it has exactly two elements; a missing name raises
`KeyError`; `record.phones[0]` raises `IndexError` on an empty phone list;
`edit_phone` may raise after it has already removed the old phone. -/
def change_contact (args : List String) (book : AddressBook) :
    Except PyErr String × AddressBook :=
  match args with
  | [name, new_phone] =>
    match book.find name with
    | some record =>
      match record.phones with
      | [] => (.error .indexError, book)
      | p0 :: _ =>
        match record.edit_phone p0.value new_phone with
        | (r1, none) =>
            (.ok "Contact phone number updated successfully.", book.update name r1)
        | (r1, some e) => (.error e, book.update name r1)
    | none => (.error (.keyError "Contact not found."), book)
  | _ => (.error (.valueError "not enough values to unpack (expected 2)"), book)

/-! ## Concrete fixtures used by the evaluated theorems and witnesses -/

/-- One contact whose birthday month/day is June 3. -/
def bookJun3 : AddressBook := ⟨[("Alice", ⟨"Alice", [], some ⟨⟨1990, 6, 3⟩⟩⟩)]⟩

/-- One contact whose birthday month/day is June 11. -/
def bookJun11 : AddressBook := ⟨[("Alice", ⟨"Alice", [], some ⟨⟨1990, 6, 11⟩⟩⟩)]⟩

/-- 2024-06-03 (a Monday) at 12:00:00, a typical value of `datetime.today()`. -/
def noonJun3 : DateTime := ⟨⟨2024, 6, 3⟩, 43200000000⟩

/-- A contact holding two phones; its first phone is 0123456789. -/
def recC5 : Record := ⟨"Bob", [⟨"0123456789"⟩, ⟨"1112223334"⟩], none⟩

/-- A book holding `recC5` under the key Bob. -/
def bookC5 : AddressBook := ⟨[("Bob", recC5)]⟩

/-- A contact whose birthday falls on Saturday 2024-06-01. -/
def recC3 : Record := ⟨"Bob", [], some ⟨⟨1990, 6, 1⟩⟩⟩

/-- A book holding `recC3`. -/
def bookC3 : AddressBook := ⟨[("Bob", recC3)]⟩

/-- 2024-05-30 (a Thursday) at exactly midnight. -/
def todayC3 : DateTime := ⟨⟨2024, 5, 30⟩, 0⟩

/-- A contact holding one phone. -/
def recC8 : Record := ⟨"Bob", [⟨"0123456789"⟩], none⟩

/-- A contact born on the leap day 1996-02-29. -/
def recC9 : Record := ⟨"A", [], some ⟨⟨1996, 2, 29⟩⟩⟩

/-- A book holding `recC9`. -/
def bookC9 : AddressBook := ⟨[("A", recC9)]⟩

/-- 2025-06-01 at midnight; 2025 is not a leap year. -/
def todayC9 : DateTime := ⟨⟨2025, 6, 1⟩, 0⟩

/-- A contact holding three phones, the first and third equal. -/
def recC10 : Record :=
  ⟨"A", [⟨"0000000000"⟩, ⟨"1111111111"⟩, ⟨"0000000000"⟩], none⟩

/-! ## Helper lemmas -/

theorem pyIsdigit_chars (p : Char → Bool) (l : List Char) :
    (!l.isEmpty && l.all p) = true ↔
      (l ≠ [] ∧ ∀ c ∈ l, p c = true) := by
  cases l <;> simp

theorem validateOk_iff (s : String) :
    Phone.validateOk s = true ↔
      (s.length = 10 ∧ ∀ c ∈ s.data, pyCharIsDigit c = true) := by
  have hlen : s.length = s.data.length := rfl
  constructor
  · intro h
    unfold Phone.validateOk pyIsdigit at h
    rw [Bool.and_eq_true] at h
    obtain ⟨h1, h2⟩ := h
    exact ⟨by simpa using h2, ((pyIsdigit_chars _ s.data).mp h1).2⟩
  · rintro ⟨hl, hall⟩
    unfold Phone.validateOk pyIsdigit
    rw [Bool.and_eq_true]
    refine ⟨(pyIsdigit_chars _ s.data).mpr ⟨?_, hall⟩, by simpa using hl⟩
    intro hnil
    rw [hlen, hnil] at hl
    simp at hl

theorem char_isDigit_toNat (c : Char) :
    c.isDigit = true ↔ (0x30 ≤ c.toNat ∧ c.toNat ≤ 0x39) := by
  simp [Char.isDigit]
  exact Iff.rfl

theorem pyCharIsDigit_ascii (c : Char) (hA : c.toNat ≤ 127) :
    pyCharIsDigit c = true ↔ c.isDigit = true := by
  rw [char_isDigit_toNat]
  unfold pyCharIsDigit
  simp only [Bool.or_eq_true, Bool.and_eq_true, decide_eq_true_eq, beq_iff_eq]
  omega

theorem mkPhone_ok_iff (s : String) :
    (∃ p, mkPhone s = .ok p) ↔ Phone.validateOk s = true := by
  unfold mkPhone
  split
  · next h => exact ⟨fun _ => h, fun _ => ⟨⟨s⟩, rfl⟩⟩
  · next h =>
    constructor
    · rintro ⟨p, hp⟩
      exact absurd hp (by simp)
    · intro hv
      exact absurd hv h

theorem mem_upcomingGo (today : DateTime) (days : Nat) :
    ∀ (l : List (String × Record)) (out : List Entry) (k : String) (r : Record)
      (x : Entry),
      upcomingGo today days l = .ok out → (k, r) ∈ l →
      processRecord today days r = .ok (some x) → x ∈ out := by
  intro l
  induction l with
  | nil =>
    intro out k r x _ hm _
    simp at hm
  | cons head tail ih =>
    intro out k r x h hm hp
    obtain ⟨k0, r0⟩ := head
    rw [upcomingGo] at h
    cases hpr : processRecord today days r0 with
    | error e =>
      rw [hpr] at h
      exact absurd h (by simp)
    | ok eo =>
      rw [hpr] at h
      cases hgo : upcomingGo today days tail with
      | error e =>
        rw [hgo] at h
        exact absurd h (by simp)
      | ok out1 =>
        rw [hgo] at h
        injection h with hout
        rcases List.mem_cons.mp hm with heq | htail
        · have hr : r = r0 := (Prod.mk.injEq _ _ _ _ ▸ heq).2
          rw [← hr, hp] at hpr
          have heo : eo = some x := (Except.ok.inj hpr).symm
          rw [heo] at hout
          rw [← hout]
          exact List.mem_cons_self x out1
        · have hx : x ∈ out1 := ih out1 k r x hgo htail hp
          rw [← hout]
          cases eo with
          | none => exact hx
          | some y => exact List.mem_cons_of_mem y hx

theorem error_upcomingGo (today : DateTime) (days : Nat) :
    ∀ (l : List (String × Record)) (k : String) (r : Record),
      (k, r) ∈ l → (∃ e, processRecord today days r = .error e) →
      ∃ e, upcomingGo today days l = .error e := by
  intro l
  induction l with
  | nil =>
    intro k r hm _
    simp at hm
  | cons head tail ih =>
    intro k r hm hp
    obtain ⟨k0, r0⟩ := head
    rw [upcomingGo]
    cases hpr : processRecord today days r0 with
    | error e => exact ⟨e, rfl⟩
    | ok eo =>
      rcases List.mem_cons.mp hm with heq | htail
      · have hr : r = r0 := (Prod.mk.injEq _ _ _ _ ▸ heq).2
        obtain ⟨e, he⟩ := hp
        rw [← hr, he] at hpr
        exact absurd hpr (by simp)
      · obtain ⟨e, he⟩ := ih k r htail hp
        rw [he]
        exact ⟨e, rfl⟩

theorem weekday_lt (d : Date) : weekday d < 7 :=
  Nat.mod_lt _ (by omega)

theorem adjustWeekend_eq (d : Date) :
    adjustWeekend d =
      (if weekday d = 5 then addDays d 2
       else if weekday d = 6 then addDays d 1 else d) := by
  have h7 := weekday_lt d
  unfold adjustWeekend
  by_cases h5 : weekday d = 5
  · simp [h5]
  · by_cases h6 : weekday d = 6
    · simp [h6]
    · have hlt : ¬ 5 ≤ weekday d := by omega
      simp [h5, h6, hlt]

theorem mkDatetime_feb29_nonleap (y : Nat) (h : isLeapYear y = false) :
    mkDatetime y 2 29 = .error (.valueError "day is out of range for month") := by
  have hnv : ¬ Date.Valid ⟨y, 2, 29⟩ := by
    simp [Date.Valid, daysInMonth, h]
  unfold mkDatetime
  rw [if_neg hnv]

theorem isLeapYear_succ (y : Nat) (h : isLeapYear y = true) :
    isLeapYear (y + 1) = false := by
  unfold isLeapYear at h ⊢
  rw [Bool.and_eq_true, beq_iff_eq] at h
  have h4 : y % 4 = 0 := h.1
  rw [Bool.and_eq_false_iff]
  left
  rw [beq_eq_false_iff_ne]
  omega

theorem mkDatetime_ok_eq {y m d : Nat} {occ : Date}
    (h : mkDatetime y m d = .ok occ) : occ = ⟨y, m, d⟩ := by
  unfold mkDatetime at h
  split at h
  · exact (Except.ok.inj h).symm
  · exact absurd h (by simp)

theorem forwardOcc_feb29 (today : DateTime) (b : Birthday)
    (hm : b.date.month = 2) (hd : b.date.day = 29)
    (hy : isLeapYear today.date.year = false ∨
      (isLeapYear today.date.year = true ∧
        midnightLt ⟨today.date.year, 2, 29⟩ today = true)) :
    ∃ e, forwardOcc today b = .error e := by
  unfold forwardOcc
  rw [hm, hd]
  rcases hy with hnl | ⟨hl, hlt⟩
  · rw [mkDatetime_feb29_nonleap today.date.year hnl]
    exact ⟨_, rfl⟩
  · cases hc : mkDatetime today.date.year 2 29 with
    | error e => exact ⟨e, rfl⟩
    | ok occ =>
      have hocc : occ = ⟨today.date.year, 2, 29⟩ := mkDatetime_ok_eq hc
      subst hocc
      refine ⟨.valueError "day is out of range for month", ?_⟩
      simp [hlt, mkDatetime_feb29_nonleap _ (isLeapYear_succ _ hl)]

theorem processRecord_feb29 (today : DateTime) (days : Nat) (r : Record)
    (b : Birthday) (hb : r.birthday = some b)
    (hm : b.date.month = 2) (hd : b.date.day = 29)
    (hy : isLeapYear today.date.year = false ∨
      (isLeapYear today.date.year = true ∧
        midnightLt ⟨today.date.year, 2, 29⟩ today = true)) :
    ∃ e, processRecord today days r = .error e := by
  obtain ⟨e, he⟩ := forwardOcc_feb29 today b hm hd hy
  refine ⟨e, ?_⟩
  simp [processRecord, hb, he]

theorem find_update_of_found :
    ∀ (l : List (String × Record)) (name : String) (r' : Record),
      (l.find? (fun kv => kv.1 == name)).isSome = true →
      ((l.map (fun kv => if kv.1 == name then (kv.1, r') else kv)).find?
          (fun kv => kv.1 == name)) = some (name, r') := by
  intro l
  induction l with
  | nil =>
    intro name r' h
    simp [List.find?] at h
  | cons head tail ih =>
    intro name r' h
    obtain ⟨k, v⟩ := head
    by_cases hk : k = name
    · subst hk
      simp only [List.map_cons, beq_self_eq_true, if_true]
      exact List.find?_cons_of_pos _ (by simp)
    · have hkb : (k == name) = false := beq_eq_false_iff_ne.mpr hk
      rw [List.find?_cons_of_neg _ (by simp [hkb])] at h
      simp only [List.map_cons, hkb, Bool.false_eq_true, if_false]
      rw [List.find?_cons_of_neg _ (by simp [hkb])]
      exact ih name r' h

theorem AddressBook.find_update (book : AddressBook) (name : String)
    (record r' : Record) (hf : book.find name = some record) :
    (book.update name r').find name = some r' := by
  have hsome : (book.data.find? (fun kv => kv.1 == name)).isSome = true := by
    unfold AddressBook.find at hf
    cases hfd : book.data.find? (fun kv => kv.1 == name) with
    | none => rw [hfd] at hf; simp at hf
    | some kv => simp [hfd]
  unfold AddressBook.find AddressBook.update
  rw [find_update_of_found book.data name r' hsome]
  rfl

/-! ## Claim theorems -/

/-- C1: the claim states that a record whose birthday month/day equals today's
month/day is included by `get_upcoming_birthdays` for every window N ≥ 0, with
day-delta 0. The code violates this: `datetime.today()` carries the wall-clock
time of day, so this year's occurrence (at midnight) compares strictly before
it whenever the program does not run at exactly midnight; the occurrence is
bumped to next year (delta.days = 364) and the record is excluded. Evaluated
at the failing input — today = 2024-06-03 12:00:00, window 7, one record with
birthday 03.06 — the result is empty. -/
theorem upcoming_excludes_birthday_today_at_noon :
    bookJun3.get_upcoming_birthdays noonJun3 7 = .ok [] := rfl

/-- C2: the claim states that a forward occurrence exactly N+1 calendar days
after today is excluded. The code violates this: subtracting `datetime.today()`
(with its nonzero time of day) from the midnight occurrence gives
`delta.days = N+1-1 = N`, which passes the `<= days` filter. Evaluated at the
failing input — today = 2024-06-03 12:00:00, window 7, one record with
birthday 11.06, exactly 8 = N+1 days out — the record is included. -/
theorem upcoming_includes_nplus1_days_out :
    bookJun11.get_upcoming_birthdays noonJun3 7 =
      .ok [⟨"Alice", "11.06.2024"⟩] := rfl

/-- C3: every record qualifying for the window (0 ≤ delta ≤ N computed on the
unshifted forward occurrence) contributes an entry whose date is the
occurrence shifted forward by 2 days when it is a Saturday (weekday 5), by 1
day when it is a Sunday (weekday 6), and unshifted on weekdays. Inclusion is
decided only by the pre-shift delta, so the emitted date is not re-filtered
and may lie outside the window (the witness emits a date 4 days out of a
2-day window). -/
theorem upcoming_weekend_shift_after_filter (book : AddressBook)
    (today : DateTime) (days : Nat) (out : List Entry) (k : String) (r : Record)
    (b : Birthday) (occ : Date)
    (hok : book.get_upcoming_birthdays today days = .ok out)
    (hmem : (k, r) ∈ book.data) (hb : r.birthday = some b)
    (hocc : forwardOcc today b = .ok occ)
    (hwin : 0 ≤ deltaDays occ today ∧ deltaDays occ today ≤ (days : Int)) :
    Entry.mk r.name (fmtDate (if weekday occ = 5 then addDays occ 2
      else if weekday occ = 6 then addDays occ 1 else occ)) ∈ out := by
  have hpr : processRecord today days r =
      .ok (some ⟨r.name, fmtDate (adjustWeekend occ)⟩) := by
    simp [processRecord, hb, hocc, hwin]
  rw [← adjustWeekend_eq occ]
  exact mem_upcomingGo today days book.data out k r _ hok hmem hpr

/-- Witness for C3: a birthday on Saturday 2024-06-01, today 2024-05-30 at
midnight, window 2: the occurrence is 2 days out (in the window) and the
emitted date is Monday 2024-06-03 — 4 days out, outside the window. -/
theorem upcoming_weekend_shift_after_filter_witness :
    Entry.mk "Bob" (fmtDate (if weekday ⟨2024, 6, 1⟩ = 5 then addDays ⟨2024, 6, 1⟩ 2
      else if weekday ⟨2024, 6, 1⟩ = 6 then addDays ⟨2024, 6, 1⟩ 1 else ⟨2024, 6, 1⟩)) ∈
      [Entry.mk "Bob" "03.06.2024"] :=
  upcoming_weekend_shift_after_filter bookC3 todayC3 2 [⟨"Bob", "03.06.2024"⟩]
    "Bob" recC3 ⟨⟨1990, 6, 1⟩⟩ ⟨2024, 6, 1⟩ rfl (by decide) rfl rfl (by decide)

/-- C4 counterexample: the claim states that Phone construction succeeds only
on strings of exactly 10 decimal digit characters. The ten-character string
of superscript twos (U+00B2) is accepted — `str.isdigit` is true of every
character with Unicode Numeric_Type=Digit or Decimal, and the superscript two
is a Digit but not a Decimal (not a decimal digit character) — so a string
the claim requires to be rejected is accepted. -/
theorem phone_accepts_nondecimal_cex :
    (∃ p, mkPhone "²²²²²²²²²²" = .ok p) ∧
    ¬ (∀ c ∈ ("²²²²²²²²²²" : String).data, isDecimalDigit c = true) :=
  ⟨⟨⟨"²²²²²²²²²²"⟩, rfl⟩, by decide⟩

/-- C4 amended: for every string of ASCII characters, constructing a `Phone`
succeeds iff the string consists of exactly 10 decimal digit characters
`0`-`9`; any ASCII string of a different length or containing a non-digit
character is rejected at construction by raising an error. (Beyond ASCII,
Python's `str.isdigit` also accepts other scripts' decimal digits and
non-decimal digit-property characters such as superscripts, so such
10-character strings are accepted as well.) -/
theorem phone_construction_ascii_iff (s : String)
    (hA : ∀ c ∈ s.data, c.toNat ≤ 127) :
    (∃ p, mkPhone s = .ok p) ↔ (s.length = 10 ∧ ∀ c ∈ s.data, c.isDigit = true) := by
  rw [mkPhone_ok_iff s, validateOk_iff s]
  constructor
  · rintro ⟨hl, hd⟩
    exact ⟨hl, fun c hc => (pyCharIsDigit_ascii c (hA c hc)).mp (hd c hc)⟩
  · rintro ⟨hl, hd⟩
    exact ⟨hl, fun c hc => (pyCharIsDigit_ascii c (hA c hc)).mpr (hd c hc)⟩

/-- Witness for C4 amended: the all-ASCII string 0123456789 satisfies the
hypothesis and the equivalence. -/
theorem phone_construction_ascii_iff_witness :
    (∀ c ∈ ("0123456789" : String).data, c.toNat ≤ 127) ∧
    ((∃ p, mkPhone "0123456789" = .ok p) ↔
      (("0123456789" : String).length = 10 ∧
        ∀ c ∈ ("0123456789" : String).data, c.isDigit = true)) :=
  ⟨by decide, phone_construction_ascii_iff "0123456789" (by decide)⟩

/-- C5 counterexample: the claim states that `change` substitutes the new
phone for the first stored phone in place, leaving every other phone in
position. On a record with phones [0123456789, 1112223334], changing to
5556667778 produces [1112223334, 5556667778], not the claimed
[5556667778, 1112223334]: the old first phone is removed and the new phone is
appended at the end. -/
theorem change_replaces_first_phone_cex :
    ((change_contact ["Bob", "5556667778"] bookC5).2.find "Bob").map Record.phones =
      some [⟨"1112223334"⟩, ⟨"5556667778"⟩] ∧
    ((change_contact ["Bob", "5556667778"] bookC5).2.find "Bob").map Record.phones ≠
      some [⟨"5556667778"⟩, ⟨"1112223334"⟩] :=
  ⟨rfl, by decide⟩

/-- C5 amended: for an existing record with a non-empty phone list and a valid
new phone, `change` reports success and the record's phone list becomes the
tail of the old list with every phone equal to the old first phone removed,
followed by the new phone appended at the end (the first position is not
substituted in place). -/
theorem change_contact_filters_and_appends (book : AddressBook)
    (name new_phone : String) (record : Record) (p0 : Phone) (rest : List Phone)
    (hf : book.find name = some record) (hp : record.phones = p0 :: rest)
    (hv : Phone.validateOk new_phone = true) :
    (change_contact [name, new_phone] book).1 =
      .ok "Contact phone number updated successfully." ∧
    ∃ r1, (change_contact [name, new_phone] book).2.find name = some r1 ∧
      r1.phones = rest.filter (fun q => q.value != p0.value) ++ [⟨new_phone⟩] := by
  have hmk : mkPhone new_phone = .ok ⟨new_phone⟩ := by
    unfold mkPhone
    rw [if_pos hv]
  have hcc : change_contact [name, new_phone] book =
      (.ok "Contact phone number updated successfully.",
        book.update name
          { record with
              phones := rest.filter (fun q => q.value != p0.value) ++ [⟨new_phone⟩] }) := by
    simp [change_contact, hf, hp, Record.edit_phone, Record.add_phone,
      Record.remove_phone, hmk]
  rw [hcc]
  exact ⟨rfl, _, AddressBook.find_update book name record _ hf, rfl⟩

/-- Witness for C5 amended: changing Bob's number on `bookC5` succeeds and
leaves phones [1112223334, 5556667778]. -/
theorem change_contact_filters_and_appends_witness :
    (change_contact ["Bob", "5556667778"] bookC5).1 =
      .ok "Contact phone number updated successfully." ∧
    ∃ r1, (change_contact ["Bob", "5556667778"] bookC5).2.find "Bob" = some r1 ∧
      r1.phones = ([⟨"1112223334"⟩] : List Phone).filter
          (fun q => q.value != "0123456789") ++ [⟨"5556667778"⟩] :=
  change_contact_filters_and_appends bookC5 "Bob" "5556667778" recC5
    ⟨"0123456789"⟩ [⟨"1112223334"⟩] rfl rfl rfl

/-- C6: the claim states that the not-found condition of a lookup command such
as `change` is never reported as the contact-already-exists condition. The
code violates this: `change_contact` raises `KeyError("Contact not found.")`
for an absent name, but the `input_error` wrapper maps every `KeyError` to the
contact-already-exists message. Evaluated at the failing input — `change Bob
5556667778` on an empty book — the wrapper reports already-exists. -/
theorem change_missing_reports_already_exists :
    (AddressBook.mk []).find "Bob" = none ∧
    input_error (change_contact ["Bob", "5556667778"] ⟨[]⟩).1 =
      "Contact already exists. Please try a different name or use the \x27change\x27 command to update." :=
  ⟨rfl, rfl⟩

/-- C7: the claim states that every input line, including the empty line,
produces a response, and that `parse_input` is total. The code violates this:
on an empty or whitespace-only line `user_input.split()` is empty, so the
unpacking `cmd, *args = ...` raises `ValueError`, which `main` does not catch —
the loop crashes instead of responding. -/
theorem parse_input_empty_line_raises :
    parse_input "" =
      .error (.valueError "not enough values to unpack (expected at least 1, got 0)") ∧
    parse_input "   " =
      .error (.valueError "not enough values to unpack (expected at least 1, got 0)") :=
  ⟨rfl, rfl⟩

/-- C8: when `edit_phone` is given an old phone that is stored and a new phone
that fails validation, the call raises, every stored phone equal to the old
phone has already been removed, and the record's phone list differs from what
it was before the call: the operation is not atomic on error. -/
theorem edit_phone_not_atomic_on_invalid_new (r : Record)
    (old_phone new_phone : String)
    (hmem : ∃ p ∈ r.phones, p.value = old_phone)
    (hv : Phone.validateOk new_phone = false) :
    ((r.edit_phone old_phone new_phone).2.isSome = true) ∧
    (∀ q ∈ (r.edit_phone old_phone new_phone).1.phones, q.value ≠ old_phone) ∧
    ((r.edit_phone old_phone new_phone).1.phones ≠ r.phones) := by
  have hmk : mkPhone new_phone = .error (.valueError
      "Invalid phone number format. Phone number should contain 10 digits.") := by
    unfold mkPhone
    rw [if_neg (by simp [hv])]
  have hedit : r.edit_phone old_phone new_phone =
      (r.remove_phone old_phone, some (.valueError
        "Invalid phone number format. Phone number should contain 10 digits.")) := by
    simp [Record.edit_phone, Record.add_phone, hmk]
  rw [hedit]
  refine ⟨rfl, ?_, ?_⟩
  · intro q hq
    have hq1 : q ∈ r.phones.filter (fun p => p.value != old_phone) := hq
    have hq2 := (List.mem_filter.mp hq1).2
    simpa [bne_iff_ne] using hq2
  · intro he
    obtain ⟨p, hp, hpv⟩ := hmem
    have hpin : p ∈ r.phones.filter (fun p => p.value != old_phone) := by
      have : p ∈ (r.remove_phone old_phone).phones := by
        rw [he]
        exact hp
      exact this
    have := (List.mem_filter.mp hpin).2
    rw [hpv] at this
    simp at this

/-- Witness for C8: removing 0123456789 and failing to add the invalid 12345
leaves the record with its phone gone and an error raised. -/
theorem edit_phone_not_atomic_on_invalid_new_witness :
    ((recC8.edit_phone "0123456789" "12345").2.isSome = true) ∧
    (∀ q ∈ (recC8.edit_phone "0123456789" "12345").1.phones,
      q.value ≠ "0123456789") ∧
    ((recC8.edit_phone "0123456789" "12345").1.phones ≠ recC8.phones) :=
  edit_phone_not_atomic_on_invalid_new recC8 "0123456789" "12345"
    ⟨⟨"0123456789"⟩, by decide, rfl⟩ rfl

/-- C9: when the book contains a record whose birthday is February 29 and the
occurrence is computed for a non-leap year — either today's year is not a leap
year, or it is and the leap-day occurrence has already passed so next year
(never a leap year) is used — `get_upcoming_birthdays` raises instead of
returning a result. -/
theorem upcoming_feb29_nonleap_raises (book : AddressBook) (today : DateTime)
    (days : Nat) (k : String) (r : Record) (b : Birthday)
    (hmem : (k, r) ∈ book.data) (hb : r.birthday = some b)
    (hm : b.date.month = 2) (hd : b.date.day = 29)
    (hy : isLeapYear today.date.year = false ∨
      (isLeapYear today.date.year = true ∧
        midnightLt ⟨today.date.year, 2, 29⟩ today = true)) :
    ∃ e, book.get_upcoming_birthdays today days = .error e :=
  error_upcomingGo today days book.data k r hmem
    (processRecord_feb29 today days r b hb hm hd hy)

/-- Witness for C9: a February 29 birthday with today = 2025-06-01 (2025 is
not a leap year) makes the call raise. -/
theorem upcoming_feb29_nonleap_raises_witness :
    ∃ e, bookC9.get_upcoming_birthdays todayC9 7 = .error e :=
  upcoming_feb29_nonleap_raises bookC9 todayC9 7 "A" recC9 ⟨⟨1996, 2, 29⟩⟩
    (by decide) rfl rfl rfl (Or.inl rfl)

/-- C10: `remove_phone p` removes every stored phone whose string equals `p`
(no phone equal to `p` survives), preserves the relative order of the
remaining phones (the result is a sublist of the original), and leaves the
list unchanged when no stored phone equals `p`. -/
theorem remove_phone_removes_all_matches (r : Record) (phone : String) :
    (∀ q ∈ (r.remove_phone phone).phones, q.value ≠ phone) ∧
    ((r.remove_phone phone).phones.Sublist r.phones) ∧
    ((∀ q ∈ r.phones, q.value ≠ phone) → (r.remove_phone phone).phones = r.phones) := by
  refine ⟨?_, List.filter_sublist _, ?_⟩
  · intro q hq
    have hq1 : q ∈ r.phones.filter (fun p => p.value != phone) := hq
    have hq2 := (List.mem_filter.mp hq1).2
    simpa [bne_iff_ne] using hq2
  · intro hall
    show r.phones.filter (fun p => p.value != phone) = r.phones
    apply List.filter_eq_self.mpr
    intro a ha
    simpa [bne_iff_ne] using hall a ha

/-- Witness for C10: removing 0000000000 strips both copies and keeps
1111111111; removing an absent number leaves the list unchanged. -/
theorem remove_phone_removes_all_matches_witness :
    ((∀ q ∈ (recC10.remove_phone "0000000000").phones, q.value ≠ "0000000000") ∧
      ((recC10.remove_phone "0000000000").phones.Sublist recC10.phones) ∧
      ((∀ q ∈ recC10.phones, q.value ≠ "0000000000") →
        (recC10.remove_phone "0000000000").phones = recC10.phones)) ∧
    (recC10.remove_phone "2222222222").phones = recC10.phones :=
  ⟨remove_phone_removes_all_matches recC10 "0000000000",
   (remove_phone_removes_all_matches recC10 "2222222222").2.2 (by decide)⟩

end HW8
